import Mathlib

/-!
Verification of the tuner test framework API core (src/tuner/api).

The Python values that flow through the executor and its operations are
modelled by an inductive JSON-like type. Python dicts are modelled as
insertion-ordered association lists with first-occurrence lookup and
in-place update, which matches dict semantics whenever keys are unique
(Python dicts never hold duplicate keys). Python str.isdigit and int()
are modelled over ASCII digits.
-/

namespace Tuner

/-- JSON-like Python value: None, bool, int, str, list, dict. -/
inductive Json where
  | null : Json
  | bool (b : Bool) : Json
  | num (n : Int) : Json
  | str (s : String) : Json
  | arr (elems : List Json) : Json
  | obj (fields : List (String × Json)) : Json

/-- Python dict with JSON values, as an insertion-ordered association list. -/
abbrev Dict := List (String × Json)

/-- Python dict with string values (request headers, cookies). -/
abbrev Headers := List (String × String)

/-- Python dict lookup: first entry with the given key. -/
def dictGet {α : Type} : List (String × α) → String → Option α
  | [], _ => none
  | (k, v) :: rest, key => if k = key then some v else dictGet rest key

/-- Python dict assignment: replace the first matching entry in place, else append. -/
def dictSet {α : Type} : List (String × α) → String → α → List (String × α)
  | [], key, v => [(key, v)]
  | (k, w) :: rest, key, v =>
    if k = key then (key, v) :: rest else (k, w) :: dictSet rest key v

/-- Python dict splat update: iterate the second dict, assigning key by key. -/
def dictUpdate {α : Type} (base : List (String × α)) (updates : List (String × α)) :
    List (String × α) :=
  updates.foldl (fun acc kv => dictSet acc kv.1 kv.2) base

/-- Splitting a character list at separator characters (the model of
re.split with a single-character alternation). -/
def splitAux (p : Char → Bool) : List Char → List Char → List String
  | [], acc => [String.mk acc.reverse]
  | c :: cs, acc =>
    if p c then String.mk acc.reverse :: splitAux p cs []
    else splitAux p cs (c :: acc)

/-- Python re.split over the characters of a string. -/
def pySplit (s : String) (p : Char → Bool) : List String :=
  splitAux p s.toList []

/-- Python str.startswith. -/
def pyStartsWith (s pre : String) : Bool :=
  pre.toList.isPrefixOf s.toList

/-- Python slicing s[n:] (by code points). -/
def pyDrop (s : String) (n : Nat) : String :=
  String.mk (s.toList.drop n)

/-- The code point ranges on which Python str.isdigit is true,
generated from the Unicode data of CPython 3.11: each triple is the
first and last code point of a range and, when int() accepts those
characters as digits (Numeric_Type=Decimal), the decimal value of the
first code point; ranges of digit characters that int() rejects
(Numeric_Type=Digit, such as the superscript two at code point 178)
carry none. -/
def pyDigitRanges : List (Nat × Nat × Option Nat) := [
    (48, 57, some 0), (178, 179, none), (185, 185, none), (1632, 1641, some 0),
    (1776, 1785, some 0), (1984, 1993, some 0), (2406, 2415, some 0), (2534, 2543, some 0),
    (2662, 2671, some 0), (2790, 2799, some 0), (2918, 2927, some 0), (3046, 3055, some 0),
    (3174, 3183, some 0), (3302, 3311, some 0), (3430, 3439, some 0), (3558, 3567, some 0),
    (3664, 3673, some 0), (3792, 3801, some 0), (3872, 3881, some 0), (4160, 4169, some 0),
    (4240, 4249, some 0), (4969, 4977, none), (6112, 6121, some 0), (6160, 6169, some 0),
    (6470, 6479, some 0), (6608, 6617, some 0), (6618, 6618, none), (6784, 6793, some 0),
    (6800, 6809, some 0), (6992, 7001, some 0), (7088, 7097, some 0), (7232, 7241, some 0),
    (7248, 7257, some 0), (8304, 8304, none), (8308, 8313, none), (8320, 8329, none),
    (9312, 9320, none), (9332, 9340, none), (9352, 9360, none), (9450, 9450, none),
    (9461, 9469, none), (9471, 9471, none), (10102, 10110, none), (10112, 10120, none),
    (10122, 10130, none), (42528, 42537, some 0), (43216, 43225, some 0), (43264, 43273, some 0),
    (43472, 43481, some 0), (43504, 43513, some 0), (43600, 43609, some 0), (44016, 44025, some 0),
    (65296, 65305, some 0), (66720, 66729, some 0), (68160, 68163, none), (68912, 68921, some 0),
    (69216, 69224, none), (69714, 69722, none), (69734, 69743, some 0), (69872, 69881, some 0),
    (69942, 69951, some 0), (70096, 70105, some 0), (70384, 70393, some 0), (70736, 70745, some 0),
    (70864, 70873, some 0), (71248, 71257, some 0), (71360, 71369, some 0), (71472, 71481, some 0),
    (71904, 71913, some 0), (72016, 72025, some 0), (72784, 72793, some 0), (73040, 73049, some 0),
    (73120, 73129, some 0), (92768, 92777, some 0), (92864, 92873, some 0), (93008, 93017, some 0),
    (120782, 120791, some 0), (120792, 120801, some 0), (120802, 120811, some 0), (120812, 120821, some 0),
    (120822, 120831, some 0), (123200, 123209, some 0), (123632, 123641, some 0), (125264, 125273, some 0),
    (127232, 127242, none), (130032, 130041, some 0)
  ]

/-- Python str.isdigit on a single character. -/
def pyIsDigitChar (c : Char) : Bool :=
  pyDigitRanges.any (fun r => decide (r.1 ≤ c.toNat) && decide (c.toNat ≤ r.2.1))

/-- The decimal value int() assigns to a character, if any. -/
def pyCharDecimal (c : Char) : Option Nat :=
  match pyDigitRanges.find? (fun r => decide (r.1 ≤ c.toNat) && decide (c.toNat ≤ r.2.1)) with
  | some (lo, _, some v0) => some (v0 + (c.toNat - lo))
  | _ => none

/-- Python str.isdigit on a segment: nonempty and all digit characters. -/
def isDigitSeg (s : String) : Bool :=
  !s.toList.isEmpty && s.toList.all pyIsDigitChar

/-- Python int() on an isdigit-true segment: the base-10 value when
every character has a decimal value, and none — a raised ValueError —
when some digit character (such as the superscript two) has none. -/
def pyIntOfDigits (s : String) : Option Nat :=
  s.toList.foldl
    (fun acc c =>
      match acc, pyCharDecimal c with
      | some n, some d => some (n * 10 + d)
      | _, _ => none)
    (some 0)

/-- Splitting a path on dots and brackets, dropping empty segments
(re.split followed by the empty-string filter in the source). -/
def parseParts (s : String) : List String :=
  (pySplit s (fun c => c = '.' || c = '[' || c = ']')).filter (fun p => !p.toList.isEmpty)

/-- The segment walk of ExtractVariableOperation._extract_by_path: a
null current value yields null before the segment is examined; a digit
segment is parsed by int() — which raises ValueError, the error value,
on a digit character without decimal value — and then indexes a list
(in range), yielding null on anything else; any other segment reads a
dict key via dict.get (a missing key becomes null and the walk
continues); other combinations yield null. -/
def walkParts : Json → List String → Except Unit Json
  | cur, [] => .ok cur
  | .null, _ :: _ => .ok .null
  | cur, part :: rest =>
    if isDigitSeg part then
      match pyIntOfDigits part with
      | none => .error ()
      | some idx =>
        match cur with
        | .arr xs =>
          match xs[idx]? with
          | some nxt => walkParts nxt rest
          | none => .ok .null
        | _ => .ok .null
    else
      match cur with
      | .obj fs => walkParts ((dictGet fs part).getD .null) rest
      | _ => .ok .null

/-- ExtractVariableOperation._extract_by_path: reject paths that do not
start with the root marker, return the whole value for the bare root,
otherwise walk the parsed segments (which can raise ValueError at a
digit segment int() rejects). -/
def extract_by_path (data : Json) (path : String) : Except Unit Json :=
  if pyStartsWith path "$." then
    let rest := pyDrop path 2
    if rest = "" then .ok data
    else walkParts data (parseParts rest)
  else .ok .null

/-- Path resolution written from the words of the amended claim: a
chain of segments resolves exactly when every non-digit segment is a
present object key and every digit segment is an in-range list index;
a null intermediate value makes the whole path miss; a digit segment
that int() rejects raises when it is reached with a non-null current
value; a missing key, wrong-typed segment or out-of-range index is a
miss. Used to compare the source walk against the claimed behaviour. -/
def specResolvePath : Json → List String → Except Unit (Option Json)
  | v, [] => .ok (some v)
  | .null, _ :: _ => .ok none
  | v, seg :: rest =>
    if isDigitSeg seg then
      match pyIntOfDigits seg with
      | none => .error ()
      | some idx =>
        match v with
        | .arr xs =>
          match xs[idx]? with
          | some w => specResolvePath w rest
          | none => .ok none
        | _ => .ok none
    else
      match v with
      | .obj fs =>
        match dictGet fs seg with
        | some w => specResolvePath w rest
        | none => .ok none
      | _ => .ok none

mutual
/-- APIExecutor._deep_merge_dict: copy the base dict, then walk the
update entries in order; when both the existing and the new value are
dicts, recurse, otherwise assign the new value. -/
def deep_merge_dict : Dict → Dict → Dict
  | base, [] => base
  | base, (k, v) :: rest => deep_merge_dict (mergeStep base k v) rest
  termination_by _b u => sizeOf u

/-- One iteration of the merge loop of APIExecutor._deep_merge_dict. -/
def mergeStep (base : Dict) (k : String) (v : Json) : Dict :=
  match dictGet base k, v with
  | some (Json.obj e), Json.obj u => dictSet base k (Json.obj (deep_merge_dict e u))
  | _, _ => dictSet base k v
  termination_by sizeOf v
end

/-- The value the merge loop assigns at one key, as a function of the
existing entry and the update value. -/
def mergeValue (existing : Option Json) (v : Json) : Json :=
  match existing, v with
  | some (Json.obj e), Json.obj u => Json.obj (deep_merge_dict e u)
  | _, v => v

/-- Keys of an association list are pairwise distinct (always true of a
Python dict). -/
def keysUnique {α : Type} : List (String × α) → Bool
  | [] => true
  | (k, _) :: rest => !(rest.any (fun kv => decide (kv.1 = k))) && keysUnique rest

mutual
/-- Every dict inside the value has pairwise distinct keys (always true
of values built from Python dicts). -/
def jsonWF : Json → Bool
  | .obj fs => keysUnique fs && fieldsWF fs
  | .arr xs => elemsWF xs
  | _ => true
  termination_by v => sizeOf v

/-- jsonWF over the values of a field list. -/
def fieldsWF : List (String × Json) → Bool
  | [] => true
  | (_, v) :: rest => jsonWF v && fieldsWF rest
  termination_by fs => sizeOf fs

/-- jsonWF over the elements of a list. -/
def elemsWF : List Json → Bool
  | [] => true
  | x :: xs => jsonWF x && elemsWF xs
  termination_by xs => sizeOf xs
end

/-- Python truthiness of the modelled values. -/
def pyTruthy : Json → Bool
  | .null => false
  | .bool b => b
  | .num n => decide (n ≠ 0)
  | .str s => !s.toList.isEmpty
  | .arr xs => !xs.isEmpty
  | .obj fs => !fs.isEmpty

/-- The value is Python None. -/
def pyIsNull : Json → Bool
  | .null => true
  | _ => false

mutual
/-- Python equality on the modelled values: bools compare with numbers
as 0 and 1, lists compare elementwise, dicts compare as key-value maps,
everything else compares within its own type. -/
def pyEq : Json → Json → Bool
  | .null, .null => true
  | .bool a, .bool b => a = b
  | .bool a, .num m => (if a then (1 : Int) else 0) = m
  | .num n, .bool b => n = (if b then (1 : Int) else 0)
  | .num n, .num m => n = m
  | .str s, .str t => s = t
  | .arr xs, .arr ys => pyEqList xs ys
  | .obj fs, .obj gs => fs.length = gs.length && pyEqFields fs gs
  | _, _ => false
  termination_by a _ => sizeOf a

/-- Elementwise Python equality of lists. -/
def pyEqList : List Json → List Json → Bool
  | [], [] => true
  | x :: xs, y :: ys => pyEq x y && pyEqList xs ys
  | _, _ => false
  termination_by xs _ => sizeOf xs

/-- Every entry of the first dict matches an entry of the second. -/
def pyEqFields : List (String × Json) → List (String × Json) → Bool
  | [], _ => true
  | (k, v) :: rest, gs =>
    (match dictGet gs k with
     | some w => pyEq v w
     | none => false) && pyEqFields rest gs
  termination_by fs _ => sizeOf fs
end

mutual
/-- Python ordered comparison: defined for numbers, bools-as-numbers,
strings, and lists (lexicographic); every other pairing raises a
TypeError, modelled as an error value. -/
def pyCompare : Json → Json → Except Unit Ordering
  | .num n, .num m => .ok (compare n m)
  | .num n, .bool b => .ok (compare n (if b then 1 else 0))
  | .bool a, .num m => .ok (compare (if a then (1 : Int) else 0) m)
  | .bool a, .bool b => .ok (compare (if a then (1 : Int) else 0) (if b then 1 else 0))
  | .str s, .str t => .ok (compare s t)
  | .arr xs, .arr ys => pyCompareList xs ys
  | _, _ => .error ()
  termination_by a _ => sizeOf a

/-- Lexicographic Python comparison of lists: skip equal heads, compare
the first differing pair, fall back to length. -/
def pyCompareList : List Json → List Json → Except Unit Ordering
  | [], [] => .ok .eq
  | [], _ :: _ => .ok .lt
  | _ :: _, [] => .ok .gt
  | x :: xs, y :: ys => if pyEq x y then pyCompareList xs ys else pyCompare x y
  termination_by xs _ => sizeOf xs
end

/-- Python substring membership t in s. -/
def strContainsSubstr (s t : String) : Bool :=
  (List.range (s.toList.length + 1)).any (fun i => t.toList.isPrefixOf (s.toList.drop i))

/-- Python membership e in a: substring test on strings, elementwise
equality on lists, key membership on dicts (only string keys can match;
unhashable keys raise), TypeError on non-containers. -/
def pyContains (e a : Json) : Except Unit Bool :=
  match a with
  | .str s =>
    match e with
    | .str t => .ok (strContainsSubstr s t)
    | _ => .error ()
  | .arr xs => .ok (xs.any (fun x => pyEq x e))
  | .obj fs =>
    match e with
    | .str k => .ok !(dictGet fs k).isNone
    | .arr _ => .error ()
    | .obj _ => .error ()
    | _ => .ok false
  | _ => .error ()

/-- Python len(): strings, lists and dicts have a length, everything
else raises a TypeError. -/
def pyLen : Json → Except Unit Nat
  | .str s => .ok s.toList.length
  | .arr xs => .ok xs.length
  | .obj fs => .ok fs.length
  | _ => .error ()

mutual
/-- Python repr of the modelled values. -/
def pyRepr : Json → String
  | .null => "None"
  | .bool true => "True"
  | .bool false => "False"
  | .num n => toString n
  | .str s => String.mk (Char.ofNat 39 :: s.toList ++ [Char.ofNat 39])
  | .arr xs => "[" ++ pyReprList xs ++ "]"
  | .obj fs => "\x7b" ++ pyReprFields fs ++ "\x7d"
  termination_by v => sizeOf v

/-- Comma-separated reprs of list elements. -/
def pyReprList : List Json → String
  | [] => ""
  | [x] => pyRepr x
  | x :: xs => pyRepr x ++ ", " ++ pyReprList xs
  termination_by xs => sizeOf xs

/-- Comma-separated reprs of dict entries. -/
def pyReprFields : List (String × Json) → String
  | [] => ""
  | [(k, v)] => String.mk (Char.ofNat 39 :: k.toList ++ [Char.ofNat 39]) ++ ": " ++ pyRepr v
  | (k, v) :: fs =>
    String.mk (Char.ofNat 39 :: k.toList ++ [Char.ofNat 39]) ++ ": " ++ pyRepr v ++ ", " ++
      pyReprFields fs
  termination_by fs => sizeOf fs
end

/-- Python str() of the modelled values, as used by the f-string of the
default assertion message. -/
def pyStr : Json → String
  | .null => "None"
  | .bool true => "True"
  | .bool false => "False"
  | .num n => toString n
  | .str s => s
  | .arr xs => pyRepr (.arr xs)
  | .obj fs => pyRepr (.obj fs)

/-- Errors an operation can raise: the configuration error of an
unsupported assertion operator (a ValueError with its message), an
assertion failure (AssertionError), a type error raised inside a
predicate, or the ValueError int() raises inside the path extractor
(the same Python kind as the first, carried separately because its
message is not modelled). -/
inductive OpError where
  | valueError (msg : String)
  | assertionError (msg : String)
  | typeError
  | intValueError
deriving DecidableEq

/-- The operators dict of AssertOperation._assert: each named operator
maps to a binary predicate over the actual and expected values; a
predicate may raise a TypeError (error value). -/
def operatorPred (op : String) : Option (Json → Json → Except Unit Bool) :=
  if op = "eq" then some fun a e => .ok (pyEq a e)
  else if op = "ne" then some fun a e => .ok !(pyEq a e)
  else if op = "gt" then some fun a e => (pyCompare a e).map (fun o => o = Ordering.gt)
  else if op = "lt" then some fun a e => (pyCompare a e).map (fun o => o = Ordering.lt)
  else if op = "gte" then some fun a e => (pyCompare a e).map (fun o => decide (o ≠ Ordering.lt))
  else if op = "lte" then some fun a e => (pyCompare a e).map (fun o => decide (o ≠ Ordering.gt))
  else if op = "contains" then some fun a e => if pyTruthy a then pyContains e a else .ok false
  else if op = "not_contains" then
    some fun a e => if pyTruthy a then (pyContains e a).map (fun b => !b) else .ok true
  else if op = "exists" then some fun a _ => .ok !(pyIsNull a)
  else if op = "not_exists" then some fun a _ => .ok (pyIsNull a)
  else if op = "is_empty" then
    some fun a _ => if pyIsNull a then .ok true else (pyLen a).map (fun n => decide (n = 0))
  else if op = "not_empty" then
    some fun a _ => if pyIsNull a then .ok false else (pyLen a).map (fun n => decide (0 < n))
  else none

/-- The default assertion failure message of AssertOperation._assert. -/
def defaultAssertMsg (actual : Json) (operator : String) (expected : Json) : String :=
  "断言失败: " ++ pyStr actual ++ " " ++ operator ++ " " ++ pyStr expected

/-- AssertOperation._assert: an unknown operator raises a ValueError;
a predicate exception propagates; a false predicate raises an
AssertionError carrying the configured message when nonempty, else the
default message. -/
def assertCheck (message : String) (actual : Json) (operator : String) (expected : Json) :
    Except OpError Unit :=
  match operatorPred operator with
  | none => .error (.valueError ("不支持的断言操作符: " ++ operator))
  | some pred =>
    match pred actual expected with
    | .error _ => .error .typeError
    | .ok true => .ok ()
    | .ok false =>
      .error (.assertionError
        (if message = "" then defaultAssertMsg actual operator expected else message))

/-- OperationContext: variable store plus optional request and response
snapshots. -/
structure OperationContext where
  vars : Dict := []
  request : Option Dict := none
  response : Option Dict := none

/-- The actual-value resolution of AssertOperation.execute: a response
source with a nonempty jsonpath and a truthy response extracts from the
response (which can raise the ValueError of int()); a variable source
with a nonempty variable name reads the variable store (missing
variable is None); anything else leaves the actual value None. -/
def assertActual (source : String) (jsonpath : Option String)
    (variable_name : Option String) (ctx : OperationContext) : Except Unit Json :=
  if source = "response" && (match jsonpath with
      | some jp => !jp.toList.isEmpty
      | none => false) && (match ctx.response with
      | some r => !r.isEmpty
      | none => false) then
    extract_by_path (Json.obj (ctx.response.getD [])) ((jsonpath.getD ""))
  else if source = "variable" && (match variable_name with
      | some vn => !vn.toList.isEmpty
      | none => false) then
    .ok ((dictGet ctx.vars (variable_name.getD "")).getD Json.null)
  else .ok Json.null

/-- The operation variants of the pipeline (the SQL ones are stubs in
the source; the base-class name and type tag fields play no role in
execution and are not modelled). -/
inductive Operation where
  | sqlQuery (enabled : Bool) (sql : String) (result_variable : String)
  | sqlExecute (enabled : Bool) (sql : String)
  | extractVar (enabled : Bool) (source : String) (jsonpath : String) (variable_name : String)
  | assertOp (enabled : Bool) (source : String) (jsonpath : Option String)
      (variable_name : Option String) (operator : String) (expected : Json) (message : String)
  | setVar (enabled : Bool) (variable_name : String) (value : Json)
  | wait (enabled : Bool) (seconds : Rat)

/-- The enabled flag carried by every operation. -/
def Operation.enabled : Operation → Bool
  | .sqlQuery e _ _ => e
  | .sqlExecute e _ => e
  | .extractVar e _ _ _ => e
  | .assertOp e _ _ _ _ _ _ => e
  | .setVar e _ _ => e
  | .wait e _ => e

/-- Executing one operation: returns the context as mutated so far
together with the error it raised, if any. SqlQuery stores an empty
list, SqlExecute and Wait leave the context unchanged, ExtractVariable
runs the extractor only when the source is the response and the
response is a truthy dict — storing the extracted value, or propagating
the ValueError the extractor can raise — Assert resolves an actual
value (whose extraction can likewise raise) and checks it, SetVariable
stores its value. -/
def opExecute : Operation → OperationContext → OperationContext × Option OpError
  | .sqlQuery _ _ rv, ctx =>
    ({ ctx with vars := dictSet ctx.vars rv (Json.arr []) }, none)
  | .sqlExecute _ _, ctx => (ctx, none)
  | .extractVar _ src jp vn, ctx =>
    if src = "response" then
      match ctx.response with
      | some r =>
        if r.isEmpty then (ctx, none)
        else
          match extract_by_path (Json.obj r) jp with
          | .ok value => ({ ctx with vars := dictSet ctx.vars vn value }, none)
          | .error _ => (ctx, some .intValueError)
      | none => (ctx, none)
    else (ctx, none)
  | .assertOp _ src jp vn op e m, ctx =>
    match assertActual src jp vn ctx with
    | .error _ => (ctx, some .intValueError)
    | .ok actual =>
      match assertCheck m actual op e with
      | .ok _ => (ctx, none)
      | .error err => (ctx, some err)
  | .setVar _ vn v, ctx => ({ ctx with vars := dictSet ctx.vars vn v }, none)
  | .wait _ _, ctx => (ctx, none)

/-- APIExecutor._run_operations: iterate the list in order, skipping
disabled operations; the first raised error aborts the remainder, and
the context reached so far is kept (operations mutate the executor
context in place, so nothing is rolled back). -/
def runOperations : List Operation → OperationContext → OperationContext × Option OpError
  | [], ctx => (ctx, none)
  | op :: rest, ctx =>
    if op.enabled then
      match opExecute op ctx with
      | (ctx2, none) => runOperations rest ctx2
      | (ctx2, some e) => (ctx2, some e)
    else runOperations rest ctx

/-- APIResponse: normalized response value object. -/
structure APIResponse where
  status_code : Int
  headers : Headers
  cookies : Headers
  body : Option Json
  elapsed : Rat
  raw_text : String

/-- The response APIExecutor._send_request synthesizes when the
transport raises a request error. -/
def errorResponse (msg : String) : APIResponse :=
  { status_code := 0
    headers := []
    cookies := []
    body := some (Json.obj [("error", Json.str msg)])
    elapsed := 0
    raw_text := msg }

/-- The sending step of APIExecutor._send_request, with the transport
outcome abstracted: a parsed response passes through, a transport error
becomes the synthesized error response. -/
def sendRequestResult (transport : Except String APIResponse) : APIResponse :=
  match transport with
  | .ok r => r
  | .error msg => errorResponse msg

/-- The context update of APIExecutor.execute step 3: the response body
if it is a dict, else an empty dict. -/
def responseCtxDict (r : APIResponse) : Dict :=
  match r.body with
  | some (Json.obj d) => d
  | _ => []

/-- APIExecutor.execute: run the pre-operations, send the request (the
transport outcome is a parameter), store the response body in the
context, run the post-operations, return the response; an operation
error aborts the call. -/
def executeModel (pre post : List Operation) (transport : Except String APIResponse)
    (ctx : OperationContext) : OperationContext × Except OpError APIResponse :=
  match runOperations pre ctx with
  | (ctx1, some e) => (ctx1, .error e)
  | (ctx1, none) =>
    let resp := sendRequestResult transport
    let ctx2 := { ctx1 with response := some (responseCtxDict resp) }
    match runOperations post ctx2 with
    | (ctx3, some e) => (ctx3, .error e)
    | (ctx3, none) => (ctx3, .ok resp)

/-- The request body variants (BodyType plus the payload of each Body
subclass; the BINARY tag has no subclass in the source). -/
inductive Body where
  | noneBody
  | json (data : Dict)
  | text (content : String) (content_type : String)
  | xml (content : String)
  | formUrlencoded (data : Headers)
  | formData (fields : Dict) (files : Option Headers)

/-- The body resolution of APIExecutor._send_request: the effective
body is the override body when supplied, else the model body (every
Body instance is truthy in Python); then a supplied nonempty
update_body dict is deep-merged into the effective body when that body
is JSON, and is a no-op otherwise (an empty update dict is falsy and
skips the merge). -/
def resolveBody (apiBody : Body) (update_body : Option Dict) (override_body : Option Body) :
    Body :=
  let body := override_body.getD apiBody
  match update_body with
  | none => body
  | some ub =>
    if ub.isEmpty then body
    else
      match body with
      | .json data => .json (deep_merge_dict data ub)
      | _ => body

/-- The base64 alphabet. -/
def base64Alphabet : List Char :=
  "ABCDEFGHIJKLMNOPQRSTUVWXYZabcdefghijklmnopqrstuvwxyz0123456789+/".toList

/-- One base64 digit. -/
def b64Char (n : Nat) : Char :=
  base64Alphabet.getD n 'A'

/-- Standard base64 of a byte list, with padding. -/
def base64EncodeBytes : List Nat → List Char
  | [] => []
  | [b1] => [b64Char (b1 / 4), b64Char (b1 % 4 * 16), '=', '=']
  | [b1, b2] => [b64Char (b1 / 4), b64Char (b1 % 4 * 16 + b2 / 16), b64Char (b2 % 16 * 4), '=']
  | b1 :: b2 :: b3 :: rest =>
    b64Char (b1 / 4) :: b64Char (b1 % 4 * 16 + b2 / 16) ::
      b64Char (b2 % 16 * 4 + b3 / 64) :: b64Char (b3 % 64) :: base64EncodeBytes rest

/-- Python base64.b64encode over the UTF-8 bytes of a string. -/
def base64Encode (s : String) : String :=
  String.mk (base64EncodeBytes (s.toUTF8.toList.map (fun b => b.toNat)))

/-- The auth variants (tuner.api.auth). -/
inductive Auth where
  | noAuth
  | bearerToken (token : String) (pfx : String)
  | apiKey (key : String) (value : String) (add_to : String)
  | basic (username : String) (password : String)

/-- Auth.apply_to_headers of each variant: NoAuth is the identity,
BearerTokenAuth sets Authorization to the prefix and token, ApiKeyAuth
sets its key header only when add_to is "header", BasicAuth sets
Authorization to the base64 of username:password. Each writes on a
copy. -/
def Auth.apply_to_headers : Auth → Headers → Headers
  | .noAuth, headers => headers
  | .bearerToken token pfx, headers => dictSet headers "Authorization" (pfx ++ " " ++ token)
  | .apiKey key value add_to, headers =>
    if add_to = "header" then dictSet headers key value else headers
  | .basic u p, headers =>
    dictSet headers "Authorization" ("Basic " ++ base64Encode (u ++ ":" ++ p))

/-- The header an auth variant writes at a given key, if any (written
from the words of the specification for the auth-derived headers). -/
def authSetsKey : Auth → String → Option String
  | .noAuth, _ => none
  | .bearerToken token pfx, k => if k = "Authorization" then some (pfx ++ " " ++ token) else none
  | .apiKey key value add_to, k =>
    if add_to = "header" && k = key then some value else none
  | .basic u p, k =>
    if k = "Authorization" then some ("Basic " ++ base64Encode (u ++ ":" ++ p)) else none

/-- The header merge of APIExecutor._send_request: copy the model
headers, apply the auth variant, then splat a truthy extra_headers dict
on top. -/
def mergeHeaders (modelHeaders : Headers) (auth : Auth) (extra : Option Headers) : Headers :=
  let h := auth.apply_to_headers modelHeaders
  match extra with
  | some e => if e.isEmpty then h else dictUpdate h e
  | none => h

/-! ## Theorems -/

/-- A null current value swallows any remaining path segments without
raising. -/
theorem walkParts_null : ∀ segs, walkParts Json.null segs = .ok Json.null
  | [] => rfl
  | _ :: _ => rfl

/-- The source walk agrees with the resolution of the amended claim:
the same raised error, and otherwise the resolved value with null
default on a miss. -/
theorem walkParts_eq_spec : ∀ (segs : List String) (v : Json),
    walkParts v segs = (specResolvePath v segs).map (fun o => o.getD Json.null) := by
  intro segs
  induction segs with
  | nil => intro v; cases v <;> rfl
  | cons seg rest ih =>
    intro v
    cases v with
    | null => cases h : isDigitSeg seg <;> simp [walkParts, specResolvePath, Except.map, h]
    | bool b =>
      cases h : isDigitSeg seg with
      | false => simp [walkParts, specResolvePath, Except.map, h]
      | true =>
        cases hi : pyIntOfDigits seg <;> simp [walkParts, specResolvePath, Except.map, h, hi]
    | num n =>
      cases h : isDigitSeg seg with
      | false => simp [walkParts, specResolvePath, Except.map, h]
      | true =>
        cases hi : pyIntOfDigits seg <;> simp [walkParts, specResolvePath, Except.map, h, hi]
    | str t =>
      cases h : isDigitSeg seg with
      | false => simp [walkParts, specResolvePath, Except.map, h]
      | true =>
        cases hi : pyIntOfDigits seg <;> simp [walkParts, specResolvePath, Except.map, h, hi]
    | arr xs =>
      cases h : isDigitSeg seg with
      | false => simp [walkParts, specResolvePath, Except.map, h]
      | true =>
        cases hi : pyIntOfDigits seg with
        | none => simp [walkParts, specResolvePath, Except.map, h, hi]
        | some idx =>
          cases hx : xs[idx]? with
          | none => simp [walkParts, specResolvePath, Except.map, h, hi, hx]
          | some nxt => simp [walkParts, specResolvePath, Except.map, h, hi, hx, ih]
    | obj fs =>
      cases h : isDigitSeg seg with
      | false =>
        cases hd : dictGet fs seg with
        | none => simp [walkParts, specResolvePath, Except.map, h, hd, walkParts_null]
        | some w => simp [walkParts, specResolvePath, Except.map, h, hd, ih]
      | true =>
        cases hi : pyIntOfDigits seg <;> simp [walkParts, specResolvePath, Except.map, h, hi]

/-- Reading back an assigned key. -/
theorem dictGet_dictSet {α : Type} (d : List (String × α)) (k k' : String) (v : α) :
    dictGet (dictSet d k v) k' = if k = k' then some v else dictGet d k' := by
  induction d with
  | nil => simp [dictGet, dictSet]
  | cons kv rest ih =>
    obtain ⟨k0, v0⟩ := kv
    by_cases h : k0 = k
    · subst h
      by_cases h2 : k0 = k' <;> simp [dictSet, dictGet, h2]
    · by_cases h2 : k0 = k'
      · subst h2
        rw [dictSet, if_neg h, dictGet, if_pos rfl, if_neg (fun he => h he.symm), dictGet,
          if_pos rfl]
      · rw [dictSet, if_neg h, dictGet, if_neg h2, ih, dictGet, if_neg h2]

/-- Assigning the value a key already holds leaves the dict unchanged. -/
theorem dictSet_get_self {α : Type} (d : List (String × α)) (k : String) (v : α)
    (h : dictGet d k = some v) : dictSet d k v = d := by
  induction d with
  | nil => simp [dictGet] at h
  | cons kv rest ih =>
    obtain ⟨k0, v0⟩ := kv
    by_cases h0 : k0 = k
    · subst h0
      rw [dictGet, if_pos rfl] at h
      cases h
      rw [dictSet, if_pos rfl]
    · rw [dictGet, if_neg h0] at h
      rw [dictSet, if_neg h0, ih h]

/-- In a dict with pairwise distinct keys, membership determines lookup. -/
theorem dictGet_of_mem {α : Type} (d : List (String × α)) (k : String) (v : α)
    (hu : keysUnique d = true) (hm : (k, v) ∈ d) : dictGet d k = some v := by
  induction d with
  | nil => simp at hm
  | cons kv rest ih =>
    obtain ⟨k0, v0⟩ := kv
    rw [keysUnique, Bool.and_eq_true] at hu
    rcases List.mem_cons.mp hm with heq | hmem
    · cases heq
      rw [dictGet, if_pos rfl]
    · have hk : ¬k0 = k := by
        intro he
        subst he
        have : rest.any (fun kv => decide (kv.1 = k0)) = true :=
          List.any_eq_true.mpr ⟨(k0, v), hmem, by simp⟩
        simp [this] at hu
      rw [dictGet, if_neg hk, ih hu.2 hmem]

/-- The merge step is an assignment of the merged value. -/
theorem mergeStep_eq (base : Dict) (k : String) (v : Json) :
    mergeStep base k v = dictSet base k (mergeValue (dictGet base k) v) := by
  cases hg : dictGet base k with
  | none => cases v <;> simp [mergeStep, mergeValue, hg]
  | some w => cases w <;> cases v <;> simp [mergeStep, mergeValue, hg]

/-- Unfolding the merge on an empty update. -/
theorem deep_merge_nil (base : Dict) : deep_merge_dict base [] = base := by
  rw [deep_merge_dict]

/-- Unfolding the merge on a nonempty update. -/
theorem deep_merge_cons (base : Dict) (k : String) (v : Json) (rest : Dict) :
    deep_merge_dict base ((k, v) :: rest) = deep_merge_dict (mergeStep base k v) rest := by
  rw [deep_merge_dict]

/-- A successful lookup witnesses the key among the entries. -/
theorem any_key_of_dictGet {α : Type} (d : List (String × α)) (k : String) (w : α)
    (h : dictGet d k = some w) : d.any (fun kv => decide (kv.1 = k)) = true := by
  induction d with
  | nil => simp [dictGet] at h
  | cons kv rest ih =>
    obtain ⟨k0, v0⟩ := kv
    rw [dictGet] at h
    by_cases h0 : k0 = k
    · simp [h0]
    · rw [if_neg h0] at h
      simp [ih h]

/-- Merging leaves keys outside the update untouched. -/
theorem dictGet_deep_merge_not_mem (u : Dict) (k : String) (h : dictGet u k = none) :
    ∀ b : Dict, dictGet (deep_merge_dict b u) k = dictGet b k := by
  induction u with
  | nil => intro b; rw [deep_merge_nil]
  | cons kv rest ih =>
    obtain ⟨k0, v0⟩ := kv
    intro b
    rw [dictGet] at h
    by_cases h0 : k0 = k
    · rw [if_pos h0] at h; cases h
    · rw [if_neg h0] at h
      rw [deep_merge_cons, ih h, mergeStep_eq, dictGet_dictSet, if_neg h0]

/-- Pointwise reading of the merge at a key of the update. -/
theorem dictGet_deep_merge_mem (u : Dict) (hu : keysUnique u = true) :
    ∀ (b : Dict) (k : String) (v : Json), dictGet u k = some v →
      dictGet (deep_merge_dict b u) k = some (mergeValue (dictGet b k) v) := by
  induction u with
  | nil => intro b k v h; simp [dictGet] at h
  | cons kv rest ih =>
    obtain ⟨k0, v0⟩ := kv
    rw [keysUnique, Bool.and_eq_true] at hu
    intro b k v h
    rw [dictGet] at h
    by_cases h0 : k0 = k
    · rw [if_pos h0] at h
      cases h
      subst h0
      have hr : dictGet rest k0 = none := by
        cases hg : dictGet rest k0 with
        | none => rfl
        | some w =>
          have := any_key_of_dictGet rest k0 w hg
          rw [this] at hu
          simp at hu
      rw [deep_merge_cons, dictGet_deep_merge_not_mem rest k0 hr, mergeStep_eq,
        dictGet_dictSet, if_pos rfl]
    · rw [if_neg h0] at h
      rw [deep_merge_cons, ih hu.2 _ _ _ h, mergeStep_eq, dictGet_dictSet, if_neg h0]

/-- A dict every update step of which is the identity is a fixpoint of
the merge. -/
theorem deep_merge_fix (u : Dict) : ∀ m : Dict,
    (∀ kv ∈ u, mergeStep m kv.1 kv.2 = m) → deep_merge_dict m u = m := by
  induction u with
  | nil => intro m _; rw [deep_merge_nil]
  | cons kv rest ih =>
    obtain ⟨k, v⟩ := kv
    intro m h
    rw [deep_merge_cons, h (k, v) (by simp)]
    exact ih m (fun kv2 hm => h kv2 (List.mem_cons_of_mem _ hm))

/-- A value stored in a dict is smaller than the dict. -/
theorem sizeOf_val_lt_of_mem (d : Dict) (k : String) (v : Json) (h : (k, v) ∈ d) :
    sizeOf v < sizeOf d := by
  induction d with
  | nil => simp at h
  | cons kv rest ih =>
    rcases List.mem_cons.mp h with heq | hmem
    · subst heq; simp; omega
    · have := ih hmem
      simp
      omega

/-- Values of a well-formed field list are well-formed. -/
theorem jsonWF_of_fieldsWF_mem (d : Dict) (k : String) (v : Json)
    (hf : fieldsWF d = true) (h : (k, v) ∈ d) : jsonWF v = true := by
  induction d with
  | nil => simp at h
  | cons kv rest ih =>
    rw [fieldsWF, Bool.and_eq_true] at hf
    rcases List.mem_cons.mp h with heq | hmem
    · subst heq; exact hf.1
    · exact ih hf.2 hmem

/-- The merged value of a non-dict update value is that value. -/
theorem mergeValue_of_not_obj (x : Option Json) (v : Json) (h : ∀ w, v ≠ Json.obj w) :
    mergeValue x v = v := by
  cases x with
  | none => cases v <;> rfl
  | some w =>
    cases w <;> cases v <;> first | rfl | exact absurd rfl (h _)

/-- The merged value of a dict update value against a non-dict existing
value is the update value. -/
theorem mergeValue_obj_of_base_not_obj (x : Option Json) (w : Dict)
    (h : ∀ e, x ≠ some (Json.obj e)) : mergeValue x (Json.obj w) = Json.obj w := by
  cases x with
  | none => rfl
  | some b => cases b <;> first | rfl | exact absurd rfl (h _)

/-- Merging a well-formed dict into itself changes nothing. -/
theorem deep_merge_self_aux : ∀ (n : Nat) (d : Dict), sizeOf d ≤ n →
    keysUnique d = true → fieldsWF d = true → deep_merge_dict d d = d := by
  intro n
  induction n with
  | zero =>
    intro d h _ _
    exact absurd h (by cases d <;> simp)
  | succ n ih =>
    intro d hsz hu hf
    apply deep_merge_fix
    intro kv hm
    obtain ⟨k, v⟩ := kv
    have hget : dictGet d k = some v := dictGet_of_mem d k v hu hm
    rw [mergeStep_eq, hget]
    cases v with
    | obj w =>
      have hwf : jsonWF (Json.obj w) = true := jsonWF_of_fieldsWF_mem d k _ hf hm
      rw [jsonWF, Bool.and_eq_true] at hwf
      have hszw : sizeOf (Json.obj w) < sizeOf d := sizeOf_val_lt_of_mem d k _ hm
      have hn : sizeOf w ≤ n := by
        have : sizeOf (Json.obj w) = 1 + sizeOf w := by simp
        omega
      have hmv : mergeValue (some (Json.obj w)) (Json.obj w) =
          Json.obj (deep_merge_dict w w) := rfl
      rw [hmv, ih w hn hwf.1 hwf.2]
      exact dictSet_get_self d k _ hget
    | null =>
      rw [mergeValue_of_not_obj _ _ (fun w => by simp)]
      exact dictSet_get_self d k _ hget
    | bool b =>
      rw [mergeValue_of_not_obj _ _ (fun w => by simp)]
      exact dictSet_get_self d k _ hget
    | num m =>
      rw [mergeValue_of_not_obj _ _ (fun w => by simp)]
      exact dictSet_get_self d k _ hget
    | str s =>
      rw [mergeValue_of_not_obj _ _ (fun w => by simp)]
      exact dictSet_get_self d k _ hget
    | arr xs =>
      rw [mergeValue_of_not_obj _ _ (fun w => by simp)]
      exact dictSet_get_self d k _ hget

/-- Re-merging an already merged well-formed update is the identity. -/
theorem deep_merge_idem_aux : ∀ (n : Nat) (u : Dict), sizeOf u ≤ n →
    keysUnique u = true → fieldsWF u = true →
    ∀ b : Dict, deep_merge_dict (deep_merge_dict b u) u = deep_merge_dict b u := by
  intro n
  induction n with
  | zero =>
    intro u h _ _
    exact absurd h (by cases u <;> simp)
  | succ n ih =>
    intro u hsz hu hf b
    apply deep_merge_fix
    intro kv hm
    obtain ⟨k, v⟩ := kv
    have hgu : dictGet u k = some v := dictGet_of_mem u k v hu hm
    have hgm : dictGet (deep_merge_dict b u) k = some (mergeValue (dictGet b k) v) :=
      dictGet_deep_merge_mem u hu b k v hgu
    cases v with
    | obj w =>
      have hwf : jsonWF (Json.obj w) = true := jsonWF_of_fieldsWF_mem u k _ hf hm
      rw [jsonWF, Bool.and_eq_true] at hwf
      have hszv : sizeOf (Json.obj w) < sizeOf u := sizeOf_val_lt_of_mem u k _ hm
      have hn : sizeOf w ≤ n := by
        have hs : sizeOf (Json.obj w) = 1 + sizeOf w := by simp
        omega
      have hz : ∃ z : Dict, mergeValue (dictGet b k) (Json.obj w) = Json.obj z ∧
          deep_merge_dict z w = z := by
        cases hgb : dictGet b k with
        | none =>
          exact ⟨w, mergeValue_obj_of_base_not_obj _ _ (by simp),
            deep_merge_self_aux (sizeOf w) w le_rfl hwf.1 hwf.2⟩
        | some bw =>
          cases bw with
          | obj e => exact ⟨deep_merge_dict e w, rfl, ih w hn hwf.1 hwf.2 e⟩
          | null =>
            exact ⟨w, mergeValue_obj_of_base_not_obj _ _ (by simp),
              deep_merge_self_aux (sizeOf w) w le_rfl hwf.1 hwf.2⟩
          | bool b2 =>
            exact ⟨w, mergeValue_obj_of_base_not_obj _ _ (by simp),
              deep_merge_self_aux (sizeOf w) w le_rfl hwf.1 hwf.2⟩
          | num m2 =>
            exact ⟨w, mergeValue_obj_of_base_not_obj _ _ (by simp),
              deep_merge_self_aux (sizeOf w) w le_rfl hwf.1 hwf.2⟩
          | str s2 =>
            exact ⟨w, mergeValue_obj_of_base_not_obj _ _ (by simp),
              deep_merge_self_aux (sizeOf w) w le_rfl hwf.1 hwf.2⟩
          | arr xs2 =>
            exact ⟨w, mergeValue_obj_of_base_not_obj _ _ (by simp),
              deep_merge_self_aux (sizeOf w) w le_rfl hwf.1 hwf.2⟩
      obtain ⟨z, hz1, hz2⟩ := hz
      rw [hz1] at hgm
      rw [mergeStep_eq, hgm]
      have hop : mergeValue (some (Json.obj z)) (Json.obj w) =
          Json.obj (deep_merge_dict z w) := rfl
      rw [hop, hz2]
      exact dictSet_get_self _ k _ hgm
    | null =>
      rw [mergeValue_of_not_obj _ _ (by simp)] at hgm
      rw [mergeStep_eq, hgm, mergeValue_of_not_obj _ _ (by simp)]
      exact dictSet_get_self _ k _ hgm
    | bool b2 =>
      rw [mergeValue_of_not_obj _ _ (by simp)] at hgm
      rw [mergeStep_eq, hgm, mergeValue_of_not_obj _ _ (by simp)]
      exact dictSet_get_self _ k _ hgm
    | num m2 =>
      rw [mergeValue_of_not_obj _ _ (by simp)] at hgm
      rw [mergeStep_eq, hgm, mergeValue_of_not_obj _ _ (by simp)]
      exact dictSet_get_self _ k _ hgm
    | str s2 =>
      rw [mergeValue_of_not_obj _ _ (by simp)] at hgm
      rw [mergeStep_eq, hgm, mergeValue_of_not_obj _ _ (by simp)]
      exact dictSet_get_self _ k _ hgm
    | arr xs2 =>
      rw [mergeValue_of_not_obj _ _ (by simp)] at hgm
      rw [mergeStep_eq, hgm, mergeValue_of_not_obj _ _ (by simp)]
      exact dictSet_get_self _ k _ hgm

/-- Outside the dict-into-dict case the merged value is the update value. -/
theorem mergeValue_of_not_both (x : Option Json) (v : Json)
    (h : ∀ e w, ¬(x = some (Json.obj e) ∧ v = Json.obj w)) : mergeValue x v = v := by
  cases x with
  | none => cases v <;> rfl
  | some bw =>
    cases bw <;> cases v <;> first | rfl | exact absurd ⟨rfl, rfl⟩ (h _ _)

/-- C6: for a well-formed update dict the deep merge is idempotent
(merging the same update a second time changes nothing); it recurses
only when both the existing value and the update value are dicts, any
other update value (arrays included) replacing the existing value
wholesale; base keys absent from the update keep their base value; and
the concrete sibling-preservation example of the specification holds. -/
theorem deep_merge_props (b u : Dict) (k : String)
    (hu : keysUnique u = true) (hf : fieldsWF u = true) :
    deep_merge_dict (deep_merge_dict b u) u = deep_merge_dict b u ∧
    (∀ v, dictGet u k = some v →
      (∀ e w, ¬(dictGet b k = some (Json.obj e) ∧ v = Json.obj w)) →
      dictGet (deep_merge_dict b u) k = some v) ∧
    (∀ e w, dictGet b k = some (Json.obj e) → dictGet u k = some (Json.obj w) →
      dictGet (deep_merge_dict b u) k = some (Json.obj (deep_merge_dict e w))) ∧
    (dictGet u k = none → dictGet (deep_merge_dict b u) k = dictGet b k) ∧
    deep_merge_dict
        [("a", Json.num 1), ("nested", Json.obj [("x", Json.num 1), ("y", Json.num 2)])]
        [("nested", Json.obj [("y", Json.num 99)])] =
      [("a", Json.num 1), ("nested", Json.obj [("x", Json.num 1), ("y", Json.num 99)])] := by
  refine ⟨deep_merge_idem_aux (sizeOf u) u le_rfl hu hf b, ?_, ?_, ?_, ?_⟩
  · intro v hv hno
    rw [dictGet_deep_merge_mem u hu b k v hv, mergeValue_of_not_both _ _ hno]
  · intro e w hb hv
    rw [dictGet_deep_merge_mem u hu b k _ hv, hb]
    rfl
  · exact fun h => dictGet_deep_merge_not_mem u k h b
  · simp [deep_merge_cons, deep_merge_nil, mergeStep_eq, mergeValue, dictGet, dictSet]

/-- Closed instance of the C6 theorem: its hypotheses hold at the
concrete example dicts, and the idempotence conclusion follows. -/
theorem deep_merge_props_witness :
    keysUnique [("nested", Json.obj [("y", Json.num 99)])] = true ∧
    fieldsWF [("nested", Json.obj [("y", Json.num 99)])] = true ∧
    deep_merge_dict
        (deep_merge_dict
          [("a", Json.num 1), ("nested", Json.obj [("x", Json.num 1), ("y", Json.num 2)])]
          [("nested", Json.obj [("y", Json.num 99)])])
        [("nested", Json.obj [("y", Json.num 99)])] =
      deep_merge_dict
        [("a", Json.num 1), ("nested", Json.obj [("x", Json.num 1), ("y", Json.num 2)])]
        [("nested", Json.obj [("y", Json.num 99)])] :=
  ⟨by decide, by simp [fieldsWF, jsonWF, keysUnique],
    (deep_merge_props
      [("a", Json.num 1), ("nested", Json.obj [("x", Json.num 1), ("y", Json.num 2)])]
      [("nested", Json.obj [("y", Json.num 99)])] "nested" (by decide)
      (by simp [fieldsWF, jsonWF, keysUnique])).1⟩

/-- C1 counterexample: the extractor is not exception-free on every
path string: the superscript two is an isdigit-true segment, so the
walk reaches int(), which raises ValueError (the error value) — here on
a value in which the path even has a lookup meaning; by contrast, a
Unicode decimal digit segment such as the Arabic-Indic three is
accepted by int() and indexes an array. -/
theorem extract_raises_on_superscript :
    extract_by_path (Json.obj [("a", Json.num 1)]) "$.²" = .error () ∧
    isDigitSeg "²" = true ∧
    extract_by_path
        (Json.arr [Json.num 10, Json.num 11, Json.num 12, Json.num 13]) "$.[٣]" =
      .ok (Json.num 13) := by
  exact ⟨rfl, rfl, rfl⟩

/-- C1 (amended): for every JSON value and path string the extractor
either returns a value or raises the ValueError of int(), the latter
exactly when the walk reaches, with a non-null current value, a
segment that str.isdigit accepts but int() rejects; when no such
segment is walked it terminates without raising: a path that does not
start with the root marker yields null, and otherwise the result is
exactly the value reached by resolving the parsed segments (object
keys for non-digit segments, in-range decimal list indices for digit
segments), with null whenever resolution meets a missing key, a
wrong-typed segment, an out-of-range index or a null intermediate
value. -/
theorem extract_by_path_matches_spec (v : Json) (p : String) :
    extract_by_path v p =
      if pyStartsWith p "$." then
        (specResolvePath v (parseParts (pyDrop p 2))).map (fun o => o.getD Json.null)
      else .ok Json.null := by
  unfold extract_by_path
  cases h : pyStartsWith p "$."
  · simp
  · simp only [if_true]
    by_cases hr : pyDrop p 2 = ""
    · rw [if_pos hr, hr]
      have hpp : parseParts "" = [] := rfl
      rw [hpp]
      cases v <;> rfl
    · rw [if_neg hr, walkParts_eq_spec]

/-- C2 counterexample: with a JSON override body and a supplied update
dict, the update is deep-merged into the override body, so the override
body is not used wholesale. -/
theorem resolveBody_override_not_wholesale :
    resolveBody (Body.json [("model_key", Json.num 1)])
        (some [("b", Json.num 2)]) (some (Body.json [("a", Json.num 1)])) =
      Body.json [("a", Json.num 1), ("b", Json.num 2)] ∧
    Body.json [("a", Json.num 1), ("b", Json.num 2)] ≠ Body.json [("a", Json.num 1)] := by
  constructor
  · simp [resolveBody, deep_merge_cons, deep_merge_nil, mergeStep_eq, mergeValue, dictGet,
      dictSet]
  · simp

/-- C2 (amended): the effective body is the override body when supplied
and the model body otherwise; a supplied nonempty update dict is
deep-merged into the effective body whenever that body is JSON — the
override body included — and is a no-op for non-JSON effective bodies
and for an empty update dict. -/
theorem resolveBody_spec (apiBody ob : Body) (ub : Dict) :
    (resolveBody apiBody none (some ob) = ob) ∧
    (resolveBody apiBody none none = apiBody) ∧
    (∀ d, ob = Body.json d → ub ≠ [] →
      resolveBody apiBody (some ub) (some ob) = Body.json (deep_merge_dict d ub)) ∧
    (∀ d, apiBody = Body.json d → ub ≠ [] →
      resolveBody apiBody (some ub) none = Body.json (deep_merge_dict d ub)) ∧
    ((∀ d, ob ≠ Body.json d) → resolveBody apiBody (some ub) (some ob) = ob) ∧
    ((∀ d, apiBody ≠ Body.json d) → resolveBody apiBody (some ub) none = apiBody) ∧
    (resolveBody apiBody (some []) (some ob) = ob) := by
  refine ⟨rfl, rfl, ?_, ?_, ?_, ?_, ?_⟩
  · intro d hd hne
    subst hd
    simp [resolveBody, hne]
  · intro d hd hne
    subst hd
    simp [resolveBody, hne]
  · intro hno
    cases ob with
    | json d => exact absurd rfl (hno d)
    | noneBody => simp [resolveBody]
    | text c ct => simp [resolveBody]
    | xml c => simp [resolveBody]
    | formUrlencoded d => simp [resolveBody]
    | formData f fl => simp [resolveBody]
  · intro hno
    cases apiBody with
    | json d => exact absurd rfl (hno d)
    | noneBody => simp [resolveBody]
    | text c ct => simp [resolveBody]
    | xml c => simp [resolveBody]
    | formUrlencoded d => simp [resolveBody]
    | formData f fl => simp [resolveBody]
  · simp [resolveBody]

/-- Closed instance of the C2 amended theorem: a nonempty update dict is
merged into a JSON override body. -/
theorem resolveBody_spec_witness :
    resolveBody (Body.json [("model_key", Json.num 1)]) (some [("b", Json.num 2)])
        (some (Body.json [("a", Json.num 1)])) =
      Body.json (deep_merge_dict [("a", Json.num 1)] [("b", Json.num 2)]) :=
  (resolveBody_spec (Body.json [("model_key", Json.num 1)]) (Body.json [("a", Json.num 1)])
    [("b", Json.num 2)]).2.2.1 [("a", Json.num 1)] rfl (by simp)

/-- C3 counterexample: an ExtractVariable operation whose source is
"request" leaves the context unchanged — in particular nothing is
stored under its variable name. -/
theorem extractVar_request_source_stores_nothing :
    opExecute (Operation.extractVar true "request" "$.a" "v")
        { vars := [], request := none, response := some [("a", Json.num 1)] } =
      ({ vars := [], request := none, response := some [("a", Json.num 1)] }, none) ∧
    dictGet
      (opExecute (Operation.extractVar true "request" "$.a" "v")
        { vars := [], request := none, response := some [("a", Json.num 1)] }).1.vars "v" =
      none := by
  exact ⟨rfl, rfl⟩

/-- C3 (amended): ExtractVariable runs the extractor exactly when the
source is "response" and the response is a nonempty dict; in that case
it stores the (possibly null) extraction result under the variable
name when the extraction returns, and propagates the ValueError when
the extraction raises (an isdigit-true path segment that int()
rejects); in every other case it returns the context unchanged without
writing the variable and without raising. -/
theorem extractVar_spec (en : Bool) (src jp vn : String) (ctx : OperationContext) :
    (∀ r, src = "response" → ctx.response = some r → r ≠ [] →
      (∀ value, extract_by_path (Json.obj r) jp = .ok value →
        opExecute (.extractVar en src jp vn) ctx =
          ({ ctx with vars := dictSet ctx.vars vn value }, none)) ∧
      (extract_by_path (Json.obj r) jp = .error () →
        opExecute (.extractVar en src jp vn) ctx = (ctx, some .intValueError))) ∧
    (src ≠ "response" → opExecute (.extractVar en src jp vn) ctx = (ctx, none)) ∧
    (ctx.response = none → opExecute (.extractVar en src jp vn) ctx = (ctx, none)) ∧
    (ctx.response = some [] → opExecute (.extractVar en src jp vn) ctx = (ctx, none)) ∧
    opExecute (.extractVar true "response" "$.²" "v")
        ⟨[], none, some [("a", Json.num 1)]⟩ =
      (⟨[], none, some [("a", Json.num 1)]⟩, some .intValueError) := by
  refine ⟨?_, ?_, ?_, ?_, rfl⟩
  · intro r hs hr hne
    have he : r.isEmpty = false := by
      cases r
      · exact absurd rfl hne
      · rfl
    constructor
    · intro value hv
      simp [opExecute, hs, hr, he, hv]
    · intro hv
      simp [opExecute, hs, hr, he, hv]
  · intro hs
    simp [opExecute, hs]
  · intro hr
    by_cases hs : src = "response" <;> simp [opExecute, hs, hr]
  · intro hr
    by_cases hs : src = "response" <;> simp [opExecute, hs, hr]

/-- Closed instance of the C3 amended theorem: with a response source
and a nonempty response dict, a returning extraction has its value
stored. -/
theorem extractVar_spec_witness :
    opExecute (Operation.extractVar true "response" "$.a" "v")
        { vars := [], request := none, response := some [("a", Json.num 7)] } =
      ({ vars := [("v", Json.num 7)], request := none,
          response := some [("a", Json.num 7)] }, none) :=
  ((extractVar_spec true "response" "$.a" "v"
      { vars := [], request := none, response := some [("a", Json.num 7)] }).1
    [("a", Json.num 7)] rfl rfl (by simp)).1 (Json.num 7) rfl

/-- Lookup through a splat update misses keys absent from the update. -/
theorem dictGet_dictUpdate_not_mem {α : Type} :
    ∀ (e h : List (String × α)) (k : String), dictGet e k = none →
      dictGet (dictUpdate h e) k = dictGet h k := by
  intro e
  induction e with
  | nil => intro h k _; rfl
  | cons kv rest ih =>
    obtain ⟨k0, v0⟩ := kv
    intro h k hn
    rw [dictGet] at hn
    by_cases h0 : k0 = k
    · rw [if_pos h0] at hn; cases hn
    · rw [if_neg h0] at hn
      have hstep : dictUpdate h ((k0, v0) :: rest) = dictUpdate (dictSet h k0 v0) rest := rfl
      rw [hstep, ih _ _ hn, dictGet_dictSet, if_neg h0]

/-- Lookup through a splat update hits the updated value when its key is
in the (duplicate-free) update dict. -/
theorem dictGet_dictUpdate_mem {α : Type} :
    ∀ (e : List (String × α)), keysUnique e = true →
      ∀ (h : List (String × α)) (k : String) (v : α), dictGet e k = some v →
        dictGet (dictUpdate h e) k = some v := by
  intro e
  induction e with
  | nil => intro _ h k v hv; simp [dictGet] at hv
  | cons kv rest ih =>
    obtain ⟨k0, v0⟩ := kv
    intro he h k v hv
    rw [keysUnique, Bool.and_eq_true] at he
    have hstep : dictUpdate h ((k0, v0) :: rest) = dictUpdate (dictSet h k0 v0) rest := rfl
    rw [dictGet] at hv
    by_cases h0 : k0 = k
    · rw [if_pos h0] at hv
      cases hv
      subst h0
      have hrest : dictGet rest k0 = none := by
        cases hg : dictGet rest k0 with
        | none => rfl
        | some w =>
          have := any_key_of_dictGet rest k0 w hg
          rw [this] at he
          simp at he
      rw [hstep, dictGet_dictUpdate_not_mem rest _ k0 hrest, dictGet_dictSet, if_pos rfl]
    · rw [if_neg h0] at hv
      rw [hstep, ih he.2 _ _ _ hv]

/-- C4: the merged request headers give extra_headers precedence over
auth-derived headers, and auth-derived headers precedence over the
model headers: a key of extra_headers keeps its extra_headers value, a
key absent there but written by auth takes the auth value, and a key in
neither keeps its model value. -/
theorem mergeHeaders_precedence (m e : Headers) (a : Auth) (k v : String)
    (he : keysUnique e = true) :
    (dictGet e k = some v → dictGet (mergeHeaders m a (some e)) k = some v) ∧
    (dictGet e k = none → authSetsKey a k = some v →
      dictGet (mergeHeaders m a (some e)) k = some v) ∧
    (dictGet e k = none → authSetsKey a k = none →
      dictGet (mergeHeaders m a (some e)) k = dictGet m k) ∧
    (authSetsKey a k = some v → dictGet (mergeHeaders m a none) k = some v) ∧
    (authSetsKey a k = none → dictGet (mergeHeaders m a none) k = dictGet m k) := by
  have happ : ∀ h : Headers, dictGet (a.apply_to_headers h) k =
      match authSetsKey a k with
      | some w => some w
      | none => dictGet h k := by
    intro h
    cases a with
    | noAuth => rfl
    | bearerToken token pfx =>
      by_cases hk : k = "Authorization"
      · simp [Auth.apply_to_headers, authSetsKey, dictGet_dictSet, hk]
      · simp [Auth.apply_to_headers, authSetsKey, dictGet_dictSet, hk, Ne.symm hk]
    | apiKey key value add_to =>
      by_cases ha : add_to = "header"
      · by_cases hk : k = key
        · simp [Auth.apply_to_headers, authSetsKey, dictGet_dictSet, ha, hk]
        · simp [Auth.apply_to_headers, authSetsKey, dictGet_dictSet, ha, hk, Ne.symm hk]
      · simp [Auth.apply_to_headers, authSetsKey, ha]
    | basic u p =>
      by_cases hk : k = "Authorization"
      · simp [Auth.apply_to_headers, authSetsKey, dictGet_dictSet, hk]
      · simp [Auth.apply_to_headers, authSetsKey, dictGet_dictSet, hk, Ne.symm hk]
  cases hee : e.isEmpty with
  | true =>
    have he0 : e = [] := by
      cases e
      · rfl
      · simp at hee
    subst he0
    refine ⟨?_, ?_, ?_, ?_, ?_⟩
    · intro hv; simp [dictGet] at hv
    · intro _ hv
      simp [mergeHeaders, happ, hv]
    · intro _ hv
      simp [mergeHeaders, happ, hv]
    · intro hv
      simp [mergeHeaders, happ, hv]
    · intro hv
      simp [mergeHeaders, happ, hv]
  | false =>
    refine ⟨?_, ?_, ?_, ?_, ?_⟩
    · intro hv
      simp only [mergeHeaders, hee, Bool.false_eq_true, if_false]
      exact dictGet_dictUpdate_mem e he _ k v hv
    · intro hn hv
      simp only [mergeHeaders, hee, Bool.false_eq_true, if_false]
      rw [dictGet_dictUpdate_not_mem e _ k hn, happ, hv]
    · intro hn hv
      simp only [mergeHeaders, hee, Bool.false_eq_true, if_false]
      rw [dictGet_dictUpdate_not_mem e _ k hn, happ, hv]
    · intro hv
      simp [mergeHeaders, happ, hv]
    · intro hv
      simp [mergeHeaders, happ, hv]

/-- Closed instance of the C4 theorem: an extra header overrides the
Authorization value written by bearer auth, which itself overrides the
model header. -/
theorem mergeHeaders_precedence_witness :
    dictGet
        (mergeHeaders [("Authorization", "model"), ("X-Other", "keep")]
          (Auth.bearerToken "tok" "Bearer") (some [("Authorization", "override")]))
        "Authorization" = some "override" :=
  (mergeHeaders_precedence [("Authorization", "model"), ("X-Other", "keep")]
    [("Authorization", "override")] (Auth.bearerToken "tok" "Bearer") "Authorization"
    "override" (by decide)).1 rfl

/-- C5: when the transport raises, execute does not propagate the
error: the post-operations run against a context whose response is the
synthesized error body, and when they succeed the call returns the
synthesized response with status code 0, empty headers and cookies, a
body holding the error message under the key "error", and zero elapsed
time. -/
theorem executeModel_transport_error (msg : String) (pre post : List Operation)
    (ctx ctx1 ctx3 : OperationContext)
    (hpre : runOperations pre ctx = (ctx1, none))
    (hpost : runOperations post
        { ctx1 with response := some [("error", Json.str msg)] } = (ctx3, none)) :
    executeModel pre post (.error msg) ctx = (ctx3, .ok (errorResponse msg)) ∧
    (errorResponse msg).status_code = 0 ∧
    (errorResponse msg).headers = [] ∧
    (errorResponse msg).cookies = [] ∧
    (errorResponse msg).body = some (Json.obj [("error", Json.str msg)]) ∧
    (errorResponse msg).elapsed = 0 := by
  refine ⟨?_, rfl, rfl, rfl, rfl, rfl⟩
  have h2 : responseCtxDict (sendRequestResult (.error msg)) = [("error", Json.str msg)] := rfl
  rw [executeModel, hpre]
  dsimp only
  rw [h2, hpost]
  rfl

/-- Closed instance of the C5 theorem with empty operation lists. -/
theorem executeModel_transport_error_witness :
    executeModel [] [] (.error "boom") { vars := [], request := none, response := none } =
      ({ vars := [], request := none, response := some [("error", Json.str "boom")] },
        .ok (errorResponse "boom")) :=
  (executeModel_transport_error "boom" [] []
    { vars := [], request := none, response := none }
    { vars := [], request := none, response := none }
    { vars := [], request := none, response := some [("error", Json.str "boom")] }
    rfl rfl).1

/-- Splitting a pipeline run at a list append. -/
theorem runOperations_append (pre : List Operation) :
    ∀ (rest : List Operation) (ctx : OperationContext),
      runOperations (pre ++ rest) ctx =
        match runOperations pre ctx with
        | (c, none) => runOperations rest c
        | (c, some e) => (c, some e) := by
  induction pre with
  | nil => intro rest ctx; rfl
  | cons op pre2 ih =>
    intro rest ctx
    cases hen : op.enabled with
    | false => simp [runOperations, hen, ih]
    | true =>
      rcases hop : opExecute op ctx with ⟨ctx2, err⟩
      cases err with
      | none => simp [runOperations, hen, hop, ih]
      | some e2 => simp [runOperations, hen, hop]

/-- C7: the pipeline visits operations in declaration order: a disabled
head is skipped with no effect on the context; an enabled head that
raises aborts the remaining operations, returning the context as
mutated so far together with the error; an enabled head that succeeds
passes its mutated context on to the remaining operations; and after a
successful prefix, an enabled operation that raises aborts the rest
while the mutations of the prefix persist in the returned context. -/
theorem runOperations_pipeline (op : Operation) (pre rest : List Operation)
    (ctx ctx1 ctx2 : OperationContext) (e : OpError) :
    (op.enabled = false → runOperations (op :: rest) ctx = runOperations rest ctx) ∧
    (op.enabled = true → opExecute op ctx = (ctx2, some e) →
      runOperations (op :: rest) ctx = (ctx2, some e)) ∧
    (op.enabled = true → opExecute op ctx = (ctx2, none) →
      runOperations (op :: rest) ctx = runOperations rest ctx2) ∧
    (runOperations pre ctx = (ctx1, none) → op.enabled = true →
      opExecute op ctx1 = (ctx2, some e) →
      runOperations (pre ++ op :: rest) ctx = (ctx2, some e)) := by
  refine ⟨?_, ?_, ?_, ?_⟩
  · intro hen
    simp [runOperations, hen]
  · intro hen hop
    simp [runOperations, hen, hop]
  · intro hen hop
    simp [runOperations, hen, hop]
  · intro hpre hen hop
    rw [runOperations_append pre (op :: rest) ctx, hpre]
    simp [runOperations, hen, hop]

/-- Closed instance of the C7 theorem: a variable set before a failing
assertion persists in the returned context, and the operation after the
failure never runs. -/
theorem runOperations_pipeline_witness :
    runOperations
        ([Operation.setVar true "a" (Json.num 1)] ++
          Operation.assertOp true "response" none none "bogus" Json.null "" ::
            [Operation.setVar true "b" (Json.num 2)])
        { vars := [], request := none, response := none } =
      ({ vars := [("a", Json.num 1)], request := none, response := none },
        some (OpError.valueError ("不支持的断言操作符: " ++ "bogus"))) :=
  (runOperations_pipeline
    (Operation.assertOp true "response" none none "bogus" Json.null "")
    [Operation.setVar true "a" (Json.num 1)] [Operation.setVar true "b" (Json.num 2)]
    { vars := [], request := none, response := none }
    { vars := [("a", Json.num 1)], request := none, response := none }
    { vars := [("a", Json.num 1)], request := none, response := none }
    (OpError.valueError ("不支持的断言操作符: " ++ "bogus"))).2.2.2 rfl rfl rfl

/-- C8: contains on a null actual evaluates to false, hence raises an
assertion failure rather than a type error, for every expected value;
not_contains on a null actual evaluates to true and passes; is_empty on
a null actual evaluates to true and passes; not_empty on a null actual
evaluates to false and raises an assertion failure. -/
theorem assert_null_actual (e : Json) (m : String) :
    assertCheck m Json.null "contains" e =
      .error (.assertionError
        (if m = "" then defaultAssertMsg Json.null "contains" e else m)) ∧
    assertCheck m Json.null "not_contains" e = .ok () ∧
    assertCheck m Json.null "is_empty" e = .ok () ∧
    assertCheck m Json.null "not_empty" e =
      .error (.assertionError
        (if m = "" then defaultAssertMsg Json.null "not_empty" e else m)) := by
  exact ⟨rfl, rfl, rfl, rfl⟩

/-- C9: assert raises a ValueError — a kind distinct from assertion
failures — exactly when the operator is not one of the twelve
recognized ones; for a recognized operator whose predicate evaluates to
false it raises an AssertionError carrying the configured message
verbatim when that message is nonempty and otherwise the default
message built from the actual value, the operator and the expected
value. -/
theorem assert_operator_taxonomy (op m : String) (a e : Json) :
    (operatorPred op = none ↔
      op ∉ ["eq", "ne", "gt", "lt", "gte", "lte", "contains", "not_contains", "exists",
        "not_exists", "is_empty", "not_empty"]) ∧
    (operatorPred op = none →
      assertCheck m a op e = .error (.valueError ("不支持的断言操作符: " ++ op))) ∧
    (∀ pred, operatorPred op = some pred → pred a e = .ok false → m ≠ "" →
      assertCheck m a op e = .error (.assertionError m)) ∧
    (∀ pred, operatorPred op = some pred → pred a e = .ok false →
      assertCheck m a op e =
        .error (.assertionError (if m = "" then defaultAssertMsg a op e else m))) ∧
    (∀ s t, OpError.valueError s ≠ OpError.assertionError t) := by
  refine ⟨?_, ?_, ?_, ?_, ?_⟩
  · constructor
    · intro h hmem
      fin_cases hmem <;> simp [operatorPred] at h
    · intro h
      simp only [List.mem_cons, List.not_mem_nil, or_false, not_or] at h
      obtain ⟨h1, h2, h3, h4, h5, h6, h7, h8, h9, h10, h11, h12⟩ := h
      simp only [operatorPred, h1, h2, h3, h4, h5, h6, h7, h8, h9, h10, h11, h12,
        if_false]
  · intro h
    rw [assertCheck, h]
  · intro pred hp hf hm
    rw [assertCheck, hp]
    dsimp only
    rw [hf, if_neg hm]
  · intro pred hp hf
    rw [assertCheck, hp]
    dsimp only
    rw [hf]
  · intro s t h
    exact OpError.noConfusion h

/-- Closed instance of the C9 theorem: a failing eq assertion carries
the configured message verbatim. -/
theorem assert_operator_taxonomy_witness :
    assertCheck "boom" (Json.num 0) "eq" (Json.num 1) =
      .error (.assertionError "boom") :=
  (assert_operator_taxonomy "eq" "boom" (Json.num 0) (Json.num 1)).2.2.1 _ rfl
    (by simp [pyEq]) (by decide)

/-- C10: contains with a falsy actual — the empty string, list or dict
included — evaluates to false and raises an assertion failure for every
expected value, even when container membership would hold, as in the
empty string containing the empty string; not_contains with a falsy
actual always evaluates to true and passes. -/
theorem assert_falsy_contains (a e : Json) (m : String) (hf : pyTruthy a = false) :
    assertCheck m a "contains" e =
      .error (.assertionError (if m = "" then defaultAssertMsg a "contains" e else m)) ∧
    assertCheck m a "not_contains" e = .ok () ∧
    pyContains (Json.str "") (Json.str "") = .ok true := by
  refine ⟨?_, ?_, rfl⟩
  · simp [assertCheck, operatorPred, hf]
  · simp [assertCheck, operatorPred, hf]

/-- Closed instance of the C10 theorem: contains on the empty string
raises even when the expected value is the empty string. -/
theorem assert_falsy_contains_witness :
    assertCheck "" (Json.str "") "contains" (Json.str "") =
      .error (.assertionError
        (if "" = "" then defaultAssertMsg (Json.str "") "contains" (Json.str "") else "")) :=
  (assert_falsy_contains (Json.str "") (Json.str "") "" rfl).1

end Tuner
